import Mathlib

/-!
Verification development for the fish-and-barrel repository: a browser chat
client with Next.js proxy routes that call a generative-AI API.  The model
below is a shallow embedding of

  * the image proxy route `src/app/api/image/route.ts` (POST handler with the
    bounded retry / exponential-backoff loop),
  * the chat proxy route (HEAD and POST handlers, single upstream call),
  * the browser client `src/app/page.tsx` (the `sendMessage` retry loop, the
    response normalizer, and the `MessageBubble` source deduplication).

Conventions: machine integers are `Nat`; a JSON value that may be absent at
runtime is an `Option`; an operation that can throw is an `Except String`
carrying the (stringified) thrown error.  Upstream HTTP traffic is modelled
by an oracle mapping the attempt index to the result of that attempt; the
request payload sent by a loop is fixed across its attempts, exactly as in
the source.  JavaScript truthiness on strings (both `undefined` and `""` are
falsy) is modelled explicitly by the `js`-prefixed helpers.
-/

namespace FishBarrel

/-- JavaScript `a || d` for `a : string | undefined`: `undefined` and the
empty string both fall through to the default. -/
def jsStringOr (o : Option String) (d : String) : String :=
  match o with
  | none => d
  | some s => if s = "" then d else s

/-- JavaScript `!k` for `k : string | undefined` (used on the API key):
true when the value is absent or the empty string. -/
def jsKeyMissing (k : Option String) : Bool :=
  match k with
  | none => true
  | some s => s == ""

/-- JavaScript `s || 500` for `s : number | undefined` (used on
`finalResponse?.status`): `undefined` and `0` are falsy. -/
def jsStatusOr500 (o : Option Nat) : Nat :=
  match o with
  | none => 500
  | some n => if n = 0 then 500 else n

/-- Whether `pat` occurs at the head of `cs`. -/
def matchesHead : List Char → List Char → Bool
  | [], _ => true
  | _ :: _, [] => false
  | p :: ps, c :: cs => p == c && matchesHead ps cs

/-- Whether `pat` occurs anywhere in `cs`. -/
def hasSubList (pat : List Char) : List Char → Bool
  | [] => matchesHead pat []
  | c :: cs => matchesHead pat (c :: cs) || hasSubList pat cs

/-- JavaScript `s.includes(pat)` on strings. -/
def strIncludes (s pat : String) : Bool :=
  hasSubList pat.toList s.toList

/-! ## Image proxy route: `src/app/api/image/route.ts`

The decoded upstream body, mirroring the `ImageApiResponseBody` interface of
the source (`candidates`, `error`, top-level `message`); every field may be
absent in the runtime JSON. -/

structure InlineData where
  mimeType : String
  d : String
deriving DecidableEq

structure ImagePart where
  inlineData : Option InlineData
deriving DecidableEq

structure ImageContent where
  parts : Option (List ImagePart)
deriving DecidableEq

structure ImageCandidate where
  content : Option ImageContent
deriving DecidableEq

structure ErrorInfo where
  message : Option String
deriving DecidableEq

structure ImageApiResponseBody where
  candidates : Option (List ImageCandidate) := none
  error : Option ErrorInfo := none
  message : Option String := none
deriving DecidableEq

/-- Source: `finalData?.error?.message?.includes("Quota exceeded") ||
finalData?.message?.includes("Quota exceeded")`. -/
def isQuotaError (b : ImageApiResponseBody) : Bool :=
  ((b.error.bind ErrorInfo.message).map (fun m => strIncludes m "Quota exceeded")).getD false
    || (b.message.map (fun m => strIncludes m "Quota exceeded")).getD false

deriving instance DecidableEq for Except

/-- Result of one upstream `fetch` that resolved: the HTTP status plus the
outcome of `response.json()` (`Except.error` when decoding threw). -/
structure FetchResult where
  status : Nat
  body : Except String ImageApiResponseBody
deriving DecidableEq

/-- Observable outcome of the image route's retry loop: how many upstream
calls were made, which backoff waits were performed (in order), the values
of `finalResponse?.status` and `finalData` when the loop exited, and the
error value when a fetch rejection escaped the loop into the outer catch. -/
structure LoopOutcome where
  calls : Nat
  sleeps : List Nat
  finalStatus : Option Nat
  finalData : Option ImageApiResponseBody
  thrown : Option String
deriving DecidableEq

/-- Body synthesized by the route when `response.json()` fails on the final
attempt (source: `finalData = { error: { message: ... } }`). -/
def parseFailBody (e : String) : ImageApiResponseBody :=
  { candidates := none
    error := some { message := some ("Failed to parse response from API: " ++ e) }
    message := none }

/-- Retry condition actually applied by a non-final iteration of the image
route loop: a body-decode failure retries, and a decoded body retries when
the status is 429 or the body carries a quota-exceeded message. -/
def retriesB (r : FetchResult) : Bool :=
  match r.body with
  | .error _ => true
  | .ok b => r.status == 429 || isQuotaError b

/-- One-to-one translation of the `for (let i = 0; i < maxRetries; i++)`
loop of the image route.  `fuel` is the number of iterations the loop may
still run (`maxRetries - i`); `delay` and the accumulated `sleeps`, the last
`finalResponse?.status` and `finalData` are threaded as the mutable locals
of the source.  A fetch rejection exits with `thrown` set (the exception
propagates to the route's outer catch). -/
def imageGo (fetchFn : Nat → Except String FetchResult) :
    Nat → Nat → Nat → List Nat → Option Nat → Option ImageApiResponseBody → LoopOutcome
  | 0, i, _, sleeps, finalStatus, finalData =>
    { calls := i, sleeps := sleeps, finalStatus := finalStatus, finalData := finalData,
      thrown := none }
  | fuel + 1, i, delay, sleeps, _, finalData =>
    match fetchFn i with
    | .error e =>
      { calls := i + 1, sleeps := sleeps, finalStatus := none, finalData := none,
        thrown := some e }
    | .ok r =>
      match r.body with
      | .error e =>
        if fuel = 0 then
          { calls := i + 1, sleeps := sleeps, finalStatus := some r.status,
            finalData := some (parseFailBody e), thrown := none }
        else
          imageGo fetchFn fuel (i + 1) (delay * 2) (sleeps ++ [delay]) (some r.status) finalData
      | .ok b =>
        if (r.status == 429 || isQuotaError b) && !(fuel == 0) then
          imageGo fetchFn fuel (i + 1) (delay * 2) (sleeps ++ [delay]) (some r.status) (some b)
        else
          { calls := i + 1, sleeps := sleeps, finalStatus := some r.status,
            finalData := some b, thrown := none }

/-- The image route's loop as entered by the source: `maxRetries` attempts,
initial `delay = 1000`. -/
def imageRetryLoop (fetchFn : Nat → Except String FetchResult) (maxRetries : Nat) : LoopOutcome :=
  imageGo fetchFn maxRetries 0 1000 [] none none

/-- The `instances` object of the image request body. -/
structure Instances where
  prompt : Option String
deriving DecidableEq

/-- Decoded image request body (`{ instances }` destructuring). -/
structure ImageRequest where
  instances : Option Instances
deriving DecidableEq

/-- Payload the image route sends upstream on every attempt: a single text
part with the prompt, plus the image response-modality directive. -/
structure ImageGenPayload where
  promptText : String
  responseModalities : List String
deriving DecidableEq

/-- Source: `geminiImagePayload` construction. -/
def geminiImagePayload (userPrompt : String) : ImageGenPayload :=
  { promptText := userPrompt, responseModalities := ["IMAGE"] }

/-- Body of a route handler's HTTP response: either a fresh
`NextResponse.json` error object with a string `error` field, a forwarded
upstream body (`finalData`, possibly `undefined`), or an empty body. -/
inductive RouteBody where
  | errorString (msg : String)
  | forwarded (b : Option ImageApiResponseBody)
  | empty
deriving DecidableEq

/-- Full observable behaviour of one image route invocation: the HTTP
response plus the effects the claims talk about (whether the request body
was read, how many upstream calls were made, which waits happened). -/
structure RouteResult where
  status : Nat
  body : RouteBody
  bodyRead : Bool
  upstreamCalls : Nat
  sleeps : List Nat
deriving DecidableEq

/-- Misconfiguration message of the image route. -/
def imageKeyMissingMsg : String :=
  "API Key not configured for image generation. Please set the GEMINI_API_KEY environment variable."

/-- JavaScript truthiness filter for an optional string: `some s` when the
value is present and nonempty. -/
def jsTruthyString (o : Option String) : Option String :=
  match o with
  | none => none
  | some s => if s = "" then none else some s

/-- The POST handler of `src/app/api/image/route.ts`.  `apiKey` models
`process.env.GEMINI_API_KEY`, `reqBody` the result of `request.json()`
(an `Except.error` when parsing the request threw), and `fetchFn` the
upstream oracle: for a payload and an attempt index it gives the attempt's
outcome (`Except.error` = the fetch promise rejected). -/
def imageRoutePOST (apiKey : Option String) (reqBody : Except String ImageRequest)
    (fetchFn : ImageGenPayload → Nat → Except String FetchResult) : RouteResult :=
  if jsKeyMissing apiKey then
    { status := 500, body := .errorString imageKeyMissingMsg, bodyRead := false,
      upstreamCalls := 0, sleeps := [] }
  else
    match reqBody with
    | .error e =>
      { status := 500, body := .errorString e, bodyRead := true,
        upstreamCalls := 0, sleeps := [] }
    | .ok req =>
      match jsTruthyString (req.instances.bind Instances.prompt) with
      | none =>
        { status := 400, body := .errorString "Missing image generation prompt.",
          bodyRead := true, upstreamCalls := 0, sleeps := [] }
      | some p =>
        let o := imageRetryLoop (fetchFn (geminiImagePayload p)) 5
        match o.thrown with
        | some e =>
          { status := 500, body := .errorString e, bodyRead := true,
            upstreamCalls := o.calls, sleeps := o.sleeps }
        | none =>
          { status := jsStatusOr500 o.finalStatus, body := .forwarded o.finalData,
            bodyRead := true, upstreamCalls := o.calls, sleeps := o.sleeps }

/-! ## Chat proxy route: `src/unnamed/part_000` (HEAD and POST handlers)

The chat route makes a single upstream `fetch` and relays the decoded body
and status verbatim; its HEAD handler answers purely from key presence. -/

/-- One `{ text }` part of a chat message, as in the route's interfaces. -/
structure ChatMessagePartIn where
  text : String
deriving DecidableEq

/-- Role of an incoming chat message (`'user' | 'model'`). -/
inductive ChatRoleIn where
  | user
  | model
deriving DecidableEq

structure ChatMessageIn where
  role : ChatRoleIn
  parts : List ChatMessagePartIn
deriving DecidableEq

/-- Decoded client payload of the chat POST (`{ contents }`). -/
structure GeminiPayload where
  contents : List ChatMessageIn
deriving DecidableEq

/-- Tool entry attached by the route (`tools: [{ "google_search": {} }]`). -/
inductive Tool where
  | googleSearch
deriving DecidableEq

structure SystemInstruction where
  parts : List ChatMessagePartIn
deriving DecidableEq

/-- The payload the chat route forwards upstream. -/
structure GeminiFullPayload where
  contents : List ChatMessageIn
  tools : List Tool
  systemInstruction : SystemInstruction
deriving DecidableEq

/-- Fixed system instruction string of the chat route. -/
def chatSystemPromptText : String :=
  "You are a world-class, fact-checked AI assistant. Use Google Search to ground your answers in real-time information. You must cite your sources when using search results."

/-- Source: the `geminiPayload` constructed by the chat POST handler. -/
def chatGeminiPayload (clientPayload : GeminiPayload) : GeminiFullPayload :=
  { contents := clientPayload.contents
    tools := [.googleSearch]
    systemInstruction := { parts := [{ text := chatSystemPromptText }] } }

/-- Result of the chat route's single upstream fetch: status plus the
outcome of `response.json()`.  The body type is a parameter because the
route treats the decoded body opaquely. -/
structure ChatUpstream (β : Type) where
  status : Nat
  body : Except String β

/-- HTTP response body of the chat route. -/
inductive ChatBody (β : Type) where
  | errorString (msg : String)
  | relayed (b : β)
  | empty

/-- Observable behaviour of one chat route invocation. -/
structure ChatResult (β : Type) where
  status : Nat
  body : ChatBody β
  bodyRead : Bool
  upstreamCalls : Nat

/-- Misconfiguration message of the chat route. -/
def chatKeyMissingMsg : String :=
  "API Key not configured on the server. Please set the GEMINI_API_KEY environment variable."

/-- The HEAD handler: 500 with the misconfiguration body when the key is
falsy, otherwise an empty 200. -/
def chatRouteHEAD (apiKey : Option String) : ChatResult Unit :=
  if jsKeyMissing apiKey then
    { status := 500, body := .errorString chatKeyMissingMsg, bodyRead := false,
      upstreamCalls := 0 }
  else
    { status := 200, body := .empty, bodyRead := false, upstreamCalls := 0 }

/-- The POST handler of the chat route: key check, parse the client
payload, attach the fixed tools and system instruction, perform one
upstream call, decode and relay.  Any throw lands in the outer catch
(500 with the error message). -/
def chatRoutePOST {β : Type} (apiKey : Option String)
    (reqBody : Except String GeminiPayload)
    (upstream : GeminiFullPayload → Except String (ChatUpstream β)) : ChatResult β :=
  if jsKeyMissing apiKey then
    { status := 500, body := .errorString chatKeyMissingMsg, bodyRead := false,
      upstreamCalls := 0 }
  else
    match reqBody with
    | .error e =>
      { status := 500, body := .errorString e, bodyRead := true, upstreamCalls := 0 }
    | .ok clientPayload =>
      match upstream (chatGeminiPayload clientPayload) with
      | .error e =>
        { status := 500, body := .errorString e, bodyRead := true, upstreamCalls := 1 }
      | .ok u =>
        match u.body with
        | .error e =>
          { status := 500, body := .errorString e, bodyRead := true, upstreamCalls := 1 }
        | .ok b =>
          { status := u.status, body := .relayed b, bodyRead := true, upstreamCalls := 1 }

/-! ## Browser client: `src/app/page.tsx`

Decoded chat response structure (the `GeminiResponse` interface); every
field may be absent in the runtime JSON. -/

structure Web where
  uri : Option String
  title : Option String
deriving DecidableEq

structure GroundingAttribution where
  web : Option Web
deriving DecidableEq

structure GroundingMetadata where
  groundingAttributions : Option (List GroundingAttribution)
deriving DecidableEq

structure ContentPart where
  text : Option String
deriving DecidableEq

structure CandidateContent where
  parts : Option (List ContentPart)
deriving DecidableEq

structure Candidate where
  content : Option CandidateContent
  groundingMetadata : Option GroundingMetadata
deriving DecidableEq

structure GeminiError where
  message : Option String
deriving DecidableEq

structure GeminiResponse where
  candidates : Option (List Candidate) := none
  error : Option GeminiError := none
deriving DecidableEq

/-- A citation source (`{ uri, title? }`). -/
structure Source where
  uri : String
  title : Option String
deriving DecidableEq

/-- Role of a client-side chat message (`'user' | 'ai'`). -/
inductive ClientRole where
  | user
  | ai
deriving DecidableEq

/-- A client-side conversation turn (the `ChatMessage` interface). -/
structure ChatMessage where
  role : ClientRole
  text : String
  sources : Option (List Source) := none
deriving DecidableEq

/-- The `Response.ok` flag of the Fetch API: status in the range 200-299. -/
def respOk (status : Nat) : Bool :=
  200 ≤ status && status ≤ 299

/-- Result of one resolved client fetch: status plus the `response.json()`
outcome. -/
structure ClientFetch where
  status : Nat
  body : Except String GeminiResponse
deriving DecidableEq

/-- Exit of the `sendMessage` retry loop: `finished` means the loop broke
out (normalization then runs on `result`, which is `none` only if the loop
never ran); `exhausted` means the final attempt failed and the catch block
appended the fixed error turn and returned early. -/
inductive ClientOutcome where
  | finished (calls : Nat) (sleeps : List Nat) (result : Option GeminiResponse)
  | exhausted (calls : Nat) (sleeps : List Nat)
deriving DecidableEq

/-- Upstream calls made by a client loop run. -/
def ClientOutcome.calls : ClientOutcome → Nat
  | .finished c _ _ => c
  | .exhausted c _ => c

/-- Backoff waits performed by a client loop run, in order. -/
def ClientOutcome.sleeps : ClientOutcome → List Nat
  | .finished _ s _ => s
  | .exhausted _ s => s

/-- One-to-one translation of the `sendMessage` retry loop of the client:
a 429 status retries directly while attempts remain; any throw (fetch
rejection, body-decode failure, or the explicit throw on a non-ok status)
is caught and retries while attempts remain; the catch at the final attempt
appends a fixed error turn and returns.  `result` threads the last decoded
body, which the throw on non-ok statuses leaves assigned. -/
def clientGo (fetchFn : Nat → Except String ClientFetch) :
    Nat → Nat → Nat → List Nat → Option GeminiResponse → ClientOutcome
  | 0, i, _, sleeps, result => .finished i sleeps result
  | fuel + 1, i, delay, sleeps, result =>
    match fetchFn i with
    | .error _ =>
      if fuel = 0 then .exhausted (i + 1) sleeps
      else clientGo fetchFn fuel (i + 1) (delay * 2) (sleeps ++ [delay]) result
    | .ok r =>
      if r.status == 429 && !(fuel == 0) then
        clientGo fetchFn fuel (i + 1) (delay * 2) (sleeps ++ [delay]) result
      else
        match r.body with
        | .error _ =>
          if fuel = 0 then .exhausted (i + 1) sleeps
          else clientGo fetchFn fuel (i + 1) (delay * 2) (sleeps ++ [delay]) result
        | .ok b =>
          if respOk r.status then .finished (i + 1) sleeps (some b)
          else if fuel = 0 then .exhausted (i + 1) sleeps
          else clientGo fetchFn fuel (i + 1) (delay * 2) (sleeps ++ [delay]) (some b)

/-- The client loop as entered by `sendMessage`: initial `delay = 1000`
(the source fixes `maxRetries = 5`; theorems quantify over the ceiling). -/
def sendMessageLoop (fetchFn : Nat → Except String ClientFetch) (maxRetries : Nat) :
    ClientOutcome :=
  clientGo fetchFn maxRetries 0 1000 [] none

/-! ### Response normalization (`sendMessage`, lines 288-316) -/

/-- Source: `result?.candidates?.[0]`. -/
def firstCandidate (result : Option GeminiResponse) : Option Candidate :=
  (result.bind GeminiResponse.candidates).bind List.head?

/-- Source: `candidate?.content?.parts?.[0]?.text`. -/
def extractedText (result : Option GeminiResponse) : Option String :=
  ((((firstCandidate result).bind Candidate.content).bind
    CandidateContent.parts).bind List.head?).bind ContentPart.text

/-- JavaScript truthiness of the extracted text (`if (text)`): present and
nonempty. -/
def truthyText (result : Option GeminiResponse) : Option String :=
  match extractedText result with
  | none => none
  | some t => if t = "" then none else some t

/-- Source: mapping of one grounding attribution to a source,
`{ uri: attribution.web?.uri || '', title: attribution.web?.title }`. -/
def attributionSource (a : GroundingAttribution) : Source :=
  { uri := jsStringOr (a.web.bind Web.uri) ""
    title := a.web.bind Web.title }

/-- Source: the `sendMessage` sources pipeline — map the attributions and
filter out empty uris (`.filter((source) => source.uri.length > 0)`). -/
def extractSources (atts : List GroundingAttribution) : List Source :=
  (atts.map attributionSource).filter (fun s => 0 < s.uri.length)

/-- Sources attached to the assistant turn: empty unless the candidate has
grounding metadata with attributions. -/
def sourcesOfCandidate (c : Option Candidate) : List Source :=
  match c.bind Candidate.groundingMetadata with
  | none => []
  | some gm =>
    match gm.groundingAttributions with
    | none => []
    | some atts => extractSources atts

/-- Source: `result?.error?.message || "Received an empty or malformed
response."`. -/
def errorDetail (result : Option GeminiResponse) : String :=
  jsStringOr ((result.bind GeminiResponse.error).bind GeminiError.message)
    "Received an empty or malformed response."

/-- The turn `sendMessage` appends after the loop finishes: the assistant
turn with the extracted text and (filtered, not deduplicated) sources when
the text is truthy, otherwise the fallback error turn. -/
def processResponse (result : Option GeminiResponse) : ChatMessage :=
  match truthyText result with
  | some t =>
    { role := .ai, text := t, sources := some (sourcesOfCandidate (firstCandidate result)) }
  | none =>
    { role := .ai, text := "An unexpected error occurred: " ++ errorDetail result,
      sources := none }

/-! ### Source deduplication at render time (`MessageBubble`) -/

/-- Translation of `Array.prototype.findIndex` specialized to the predicate
`t => t.uri === v.uri` used by `MessageBubble`. -/
def findIndexUri (u : String) : List Source → Option Nat
  | [] => none
  | s :: rest => if s.uri == u then some 0 else (findIndexUri u rest).map (· + 1)

/-- Index-value pairs of a list, starting at `n` (the `(v, i)` view the
JavaScript filter callback receives). -/
def enumFrom {α : Type} (n : Nat) : List α → List (Nat × α)
  | [] => []
  | a :: as => (n, a) :: enumFrom (n + 1) as

/-- Source: `sources.filter((v, i, a) => a.findIndex(t => (t.uri === v.uri))
=== i)` — keep an entry exactly when it is the first occurrence of its uri. -/
def uniqueByUri (l : List Source) : List Source :=
  ((enumFrom 0 l).filter (fun p => findIndexUri p.2.uri l == some p.1)).map Prod.snd

/-- The `uniqueSources` value `MessageBubble` renders for a message. -/
def uniqueSources (m : ChatMessage) : List Source :=
  match m.sources with
  | none => []
  | some l => uniqueByUri l

/-- The normalized source list of the spec: the `sendMessage` filter stage
composed with the `MessageBubble` first-occurrence deduplication stage. -/
def normalizedSources (atts : List GroundingAttribution) : List Source :=
  uniqueByUri (extractSources atts)

/-! ## Helper lemmas about the image route loop -/

/-- When at least one iteration remains, the loop's outcome does not depend
on the carried `finalStatus`/`finalData` state: every exit path overwrites
them. -/
theorem imageGo_state_irrel (fetchFn : Nat → Except String FetchResult) :
    ∀ fuel, 1 ≤ fuel → ∀ i delay sleeps fs fd fs' fd',
      imageGo fetchFn fuel i delay sleeps fs fd =
        imageGo fetchFn fuel i delay sleeps fs' fd' := by
  intro fuel
  induction fuel with
  | zero => intro h; omega
  | succ f ih =>
    intro _ i delay sleeps fs fd fs' fd'
    cases hf : fetchFn i with
    | error e => simp only [imageGo, hf]
    | ok r =>
      cases hb : r.body with
      | error e =>
        by_cases h0 : f = 0
        · simp only [imageGo, hf, hb, if_pos h0]
        · simp only [imageGo, hf, hb, if_neg h0]
          exact ih (by omega) _ _ _ _ _ _ _
      | ok b =>
        by_cases hc : ((r.status == 429 || isQuotaError b) && !(f == 0)) = true
        · simp only [imageGo, hf, hb, if_pos hc]
        · simp only [imageGo, hf, hb, if_neg hc]

/-- Backoff arithmetic: the waits of a run whose first wait is `delay`,
viewed one retry later. -/
theorem range_map_backoff (delay k : Nat) :
    (List.range (k + 1)).map (fun j => delay * 2 ^ j)
      = delay :: (List.range k).map (fun j => delay * 2 * 2 ^ j) := by
  rw [List.range_succ_eq_map]
  simp only [List.map_cons, pow_zero, mul_one, List.map_map]
  congr 1
  apply List.map_congr_left
  intro a _
  simp only [Function.comp_apply, pow_succ]
  ring

/-- Running the loop through `k` retrying attempts: if the first `k`
attempts each resolve and satisfy the retry condition, the loop reaches
attempt `i + k` with the delay doubled `k` times and the `k` waits
recorded. -/
theorem imageGo_skip (fetchFn : Nat → Except String FetchResult) :
    ∀ (k fuel i delay : Nat) (sleeps : List Nat) (fs : Option Nat)
      (fd : Option ImageApiResponseBody), k < fuel →
      (∀ j, j < k → ∃ r, fetchFn (i + j) = .ok r ∧ retriesB r = true) →
      imageGo fetchFn fuel i delay sleeps fs fd =
        imageGo fetchFn (fuel - k) (i + k) (delay * 2 ^ k)
          (sleeps ++ (List.range k).map (fun j => delay * 2 ^ j)) none none := by
  intro k
  induction k with
  | zero =>
    intro fuel i delay sleeps fs fd hk _
    simp only [Nat.sub_zero, Nat.add_zero, pow_zero, mul_one, List.range_zero, List.map_nil,
      List.append_nil]
    exact imageGo_state_irrel fetchFn fuel (by omega) i delay sleeps fs fd none none
  | succ k ih =>
    intro fuel i delay sleeps fs fd hk hret
    obtain ⟨r, hr, hrb⟩ := hret 0 (by omega)
    rw [Nat.add_zero] at hr
    cases fuel with
    | zero => omega
    | succ f =>
      have hshift : ∀ j, j < k → ∃ r, fetchFn (i + 1 + j) = .ok r ∧ retriesB r = true := by
        intro j hj
        have h := hret (j + 1) (by omega)
        rw [show i + (j + 1) = i + 1 + j by omega] at h
        exact h
      have e1 : f + 1 - (k + 1) = f - k := by omega
      have e2 : i + (k + 1) = i + 1 + k := by omega
      have e3 : delay * 2 ^ (k + 1) = delay * 2 * 2 ^ k := by ring
      rw [e1, e2, e3, range_map_backoff, List.append_cons]
      cases hb : r.body with
      | error e =>
        have h0 : ¬(f = 0) := by omega
        simp only [imageGo, hr, hb, if_neg h0]
        exact ih f (i + 1) (delay * 2) (sleeps ++ [delay]) (some r.status) fd (by omega) hshift
      | ok b =>
        have hcond : (r.status == 429 || isQuotaError b) = true := by
          have h := hrb
          rw [retriesB, hb] at h
          exact h
        have h0 : (f == 0) = false := by
          simp only [beq_eq_false_iff_ne]
          omega
        have hcc : ((r.status == 429 || isQuotaError b) && !(f == 0)) = true := by
          rw [hcond, h0]
          rfl
        simp only [imageGo, hr, hb]
        rw [if_pos hcc]
        rw [ih f (i + 1) (delay * 2) (sleeps ++ [delay]) (some r.status) (some b) (by omega)
          hshift]

/-- A resolved, decoded, non-retryable attempt breaks the loop at once,
returning its status and body as received and recording no further wait. -/
theorem imageGo_break (fetchFn : Nat → Except String FetchResult)
    (fuel i delay : Nat) (sleeps : List Nat) (fs : Option Nat)
    (fd : Option ImageApiResponseBody) (s : Nat) (b : ImageApiResponseBody)
    (hr : fetchFn i = .ok ⟨s, .ok b⟩) (hnb : (s == 429 || isQuotaError b) = false) :
    imageGo fetchFn (fuel + 1) i delay sleeps fs fd =
      { calls := i + 1, sleeps := sleeps, finalStatus := some s, finalData := some b,
        thrown := none } := by
  have hcc : ¬((((⟨s, .ok b⟩ : FetchResult).status == 429
      || isQuotaError b) && !(fuel == 0)) = true) := by
    simp only [hnb, Bool.false_and]
    simp
  simp only [imageGo, hr]
  rw [if_neg hcc]

/-- On the final permitted attempt any decoded result breaks the loop and is
returned as received, retryable-looking or not. -/
theorem imageGo_last_decoded (fetchFn : Nat → Except String FetchResult)
    (i delay : Nat) (sleeps : List Nat) (fs : Option Nat)
    (fd : Option ImageApiResponseBody) (s : Nat) (b : ImageApiResponseBody)
    (hr : fetchFn i = .ok ⟨s, .ok b⟩) :
    imageGo fetchFn 1 i delay sleeps fs fd =
      { calls := i + 1, sleeps := sleeps, finalStatus := some s, finalData := some b,
        thrown := none } := by
  simp only [imageGo, hr]
  simp

/-- On the final permitted attempt a body-decode failure synthesizes the
parse-failure body, keeping the attempt's own status. -/
theorem imageGo_last_parse_fail (fetchFn : Nat → Except String FetchResult)
    (i delay : Nat) (sleeps : List Nat) (fs : Option Nat)
    (fd : Option ImageApiResponseBody) (s : Nat) (e : String)
    (hr : fetchFn i = .ok ⟨s, .error e⟩) :
    imageGo fetchFn 1 i delay sleeps fs fd =
      { calls := i + 1, sleeps := sleeps, finalStatus := some s,
        finalData := some (parseFailBody e), thrown := none } := by
  simp only [imageGo, hr]
  simp

/-- A fetch rejection escapes the loop at once carrying the thrown error. -/
theorem imageGo_thrown (fetchFn : Nat → Except String FetchResult)
    (fuel i delay : Nat) (sleeps : List Nat) (fs : Option Nat)
    (fd : Option ImageApiResponseBody) (e : String) (hr : fetchFn i = .error e) :
    imageGo fetchFn (fuel + 1) i delay sleeps fs fd =
      { calls := i + 1, sleeps := sleeps, finalStatus := none, finalData := none,
        thrown := some e } := by
  simp only [imageGo, hr]

/-- Step of the backoff bookkeeping: appending the wait taken at attempt
`i` to the waits of the first `i` attempts gives the waits of the first
`i + 1` attempts. -/
theorem range_map_snoc (i : Nat) :
    (List.range i).map (fun j => 1000 * 2 ^ j) ++ [1000 * 2 ^ i]
      = (List.range (i + 1)).map (fun j => 1000 * 2 ^ j) := by
  rw [List.range_succ, List.map_append]
  rfl

/-- Shape of the image loop's waits: starting from attempt `i` with the
source's invariant state (delay doubled `i` times, one recorded wait per
past retry), the final wait list is exactly one doubling wait per retry
performed — so no wait precedes the first attempt and each wait `j` equals
`1000 * 2 ^ j`. -/
theorem imageGo_sleeps (fetchFn : Nat → Except String FetchResult) :
    ∀ fuel, 1 ≤ fuel → ∀ i fs fd,
      (imageGo fetchFn fuel i (1000 * 2 ^ i)
          ((List.range i).map (fun j => 1000 * 2 ^ j)) fs fd).sleeps
        = (List.range ((imageGo fetchFn fuel i (1000 * 2 ^ i)
            ((List.range i).map (fun j => 1000 * 2 ^ j)) fs fd).calls - 1)).map
            (fun j => 1000 * 2 ^ j) := by
  intro fuel
  induction fuel with
  | zero => intro h; omega
  | succ f ih =>
    intro _ i fs fd
    cases hf : fetchFn i with
    | error e =>
      simp only [imageGo, hf, Nat.add_sub_cancel]
    | ok r =>
      cases hb : r.body with
      | error e =>
        by_cases h0 : f = 0
        · simp only [imageGo, hf, hb, if_pos h0, Nat.add_sub_cancel]
        · have e1 : 1000 * 2 ^ i * 2 = 1000 * 2 ^ (i + 1) := by ring
          simp only [imageGo, hf, hb, if_neg h0, e1, range_map_snoc]
          exact ih (by omega) (i + 1) (some r.status) fd
      | ok b =>
        by_cases hc : ((r.status == 429 || isQuotaError b) && !(f == 0)) = true
        · have hf1 : ¬(f = 0) := by
            intro h
            rw [h] at hc
            simp at hc
          have e1 : 1000 * 2 ^ i * 2 = 1000 * 2 ^ (i + 1) := by ring
          simp only [imageGo, hf, hb]
          rw [if_pos hc, e1, range_map_snoc]
          exact ih (by omega) (i + 1) (some r.status) (some b)
        · simp only [imageGo, hf, hb]
          rw [if_neg hc]
          simp only [Nat.add_sub_cancel]

/-! ## Helper lemmas about the client loop -/

/-- Once the client loop runs an iteration it has made at least one call
per attempt index reached. -/
theorem clientGo_calls_ge (fetchFn : Nat → Except String ClientFetch) :
    ∀ fuel, 1 ≤ fuel → ∀ i delay sleeps res,
      i + 1 ≤ (clientGo fetchFn fuel i delay sleeps res).calls := by
  intro fuel
  induction fuel with
  | zero => intro h; omega
  | succ f ih =>
    intro _ i delay sleeps res
    cases hf : fetchFn i with
    | error e =>
      by_cases h0 : f = 0
      · simp only [clientGo, hf, if_pos h0, ClientOutcome.calls]
        omega
      · simp only [clientGo, hf, if_neg h0]
        have h := ih (by omega) (i + 1) (delay * 2) (sleeps ++ [delay]) res
        omega
    | ok r =>
      by_cases hc : (r.status == 429 && !(f == 0)) = true
      · have hf1 : ¬(f = 0) := by
          intro h
          rw [h] at hc
          simp at hc
        simp only [clientGo, hf]
        rw [if_pos hc]
        have h := ih (by omega) (i + 1) (delay * 2) (sleeps ++ [delay]) res
        omega
      · simp only [clientGo, hf]
        rw [if_neg hc]
        cases hb : r.body with
        | error e =>
          by_cases h0 : f = 0
          · simp only [if_pos h0, ClientOutcome.calls]
            omega
          · simp only [if_neg h0]
            have h := ih (by omega) (i + 1) (delay * 2) (sleeps ++ [delay]) res
            omega
        | ok b =>
          by_cases hok : respOk r.status = true
          · simp only [if_pos hok, ClientOutcome.calls]
            omega
          · simp only [if_neg hok]
            by_cases h0 : f = 0
            · simp only [if_pos h0, ClientOutcome.calls]
              omega
            · simp only [if_neg h0]
              have h := ih (by omega) (i + 1) (delay * 2) (sleeps ++ [delay]) (some b)
              omega

/-- Shape of the client loop's waits, exactly as for the image loop: one
doubling wait per retry, none before the first attempt. -/
theorem clientGo_sleeps (fetchFn : Nat → Except String ClientFetch) :
    ∀ fuel, 1 ≤ fuel → ∀ i res,
      (clientGo fetchFn fuel i (1000 * 2 ^ i)
          ((List.range i).map (fun j => 1000 * 2 ^ j)) res).sleeps
        = (List.range ((clientGo fetchFn fuel i (1000 * 2 ^ i)
            ((List.range i).map (fun j => 1000 * 2 ^ j)) res).calls - 1)).map
            (fun j => 1000 * 2 ^ j) := by
  intro fuel
  induction fuel with
  | zero => intro h; omega
  | succ f ih =>
    intro _ i res
    have e1 : 1000 * 2 ^ i * 2 = 1000 * 2 ^ (i + 1) := by ring
    cases hf : fetchFn i with
    | error e =>
      by_cases h0 : f = 0
      · simp only [clientGo, hf, if_pos h0, ClientOutcome.sleeps, ClientOutcome.calls,
          Nat.add_sub_cancel]
      · simp only [clientGo, hf, if_neg h0, e1, range_map_snoc]
        exact ih (by omega) (i + 1) res
    | ok r =>
      by_cases hc : (r.status == 429 && !(f == 0)) = true
      · have hf1 : ¬(f = 0) := by
          intro h
          rw [h] at hc
          simp at hc
        simp only [clientGo, hf]
        rw [if_pos hc, e1, range_map_snoc]
        exact ih (by omega) (i + 1) res
      · simp only [clientGo, hf]
        rw [if_neg hc]
        cases hb : r.body with
        | error e =>
          by_cases h0 : f = 0
          · simp only [if_pos h0, ClientOutcome.sleeps, ClientOutcome.calls,
              Nat.add_sub_cancel]
          · simp only [if_neg h0, e1, range_map_snoc]
            exact ih (by omega) (i + 1) res
        | ok b =>
          by_cases hok : respOk r.status = true
          · simp only [if_pos hok, ClientOutcome.sleeps, ClientOutcome.calls,
              Nat.add_sub_cancel]
          · simp only [if_neg hok]
            by_cases h0 : f = 0
            · simp only [if_pos h0, ClientOutcome.sleeps, ClientOutcome.calls,
                Nat.add_sub_cancel]
            · simp only [if_neg h0, e1, range_map_snoc]
              exact ih (by omega) (i + 1) (some b)

/-! ## Helper lemmas about the `MessageBubble` deduplication -/

theorem enumFrom_map_snd {α : Type} : ∀ (l : List α) (n : Nat),
    (enumFrom n l).map Prod.snd = l
  | [], _ => rfl
  | a :: as, n => by
    simp only [enumFrom, List.map_cons]
    rw [enumFrom_map_snd as (n + 1)]

theorem mem_enumFrom_ge {α : Type} : ∀ (l : List α) (n : Nat) (p : Nat × α),
    p ∈ enumFrom n l → n ≤ p.1
  | [], n, p, h => by simp [enumFrom] at h
  | a :: as, n, p, h => by
    simp only [enumFrom, List.mem_cons] at h
    cases h with
    | inl h => subst h; exact Nat.le_refl n
    | inr h =>
      have hge := mem_enumFrom_ge as (n + 1) p h
      omega

theorem enumFrom_pairwise_lt {α : Type} : ∀ (l : List α) (n : Nat),
    (enumFrom n l).Pairwise (fun p q => p.1 < q.1)
  | [], _ => List.Pairwise.nil
  | a :: as, n => by
    simp only [enumFrom]
    refine List.Pairwise.cons ?_ (enumFrom_pairwise_lt as (n + 1))
    intro q hq
    have hge := mem_enumFrom_ge as (n + 1) q hq
    simp only []
    omega

theorem mem_enumFrom_get {α : Type} : ∀ (l : List α) (n : Nat) (p : Nat × α),
    p ∈ enumFrom n l → l.get? (p.1 - n) = some p.2
  | [], n, p, h => by simp [enumFrom] at h
  | a :: as, n, p, h => by
    simp only [enumFrom, List.mem_cons] at h
    cases h with
    | inl h => subst h; simp
    | inr h =>
      have hge := mem_enumFrom_ge as (n + 1) p h
      have hrec := mem_enumFrom_get as (n + 1) p h
      have hsub : p.1 - n = (p.1 - (n + 1)) + 1 := by omega
      rw [hsub]
      exact hrec

theorem get_mem_enumFrom {α : Type} : ∀ (l : List α) (j n : Nat) (v : α),
    l.get? j = some v → (n + j, v) ∈ enumFrom n l
  | [], j, n, v, h => by simp at h
  | a :: as, 0, n, v, h => by
    simp only [List.get?] at h
    cases h
    simp [enumFrom]
  | a :: as, j + 1, n, v, h => by
    have hrec := get_mem_enumFrom as j (n + 1) v h
    simp only [enumFrom, List.mem_cons]
    right
    rw [show n + (j + 1) = (n + 1) + j by omega]
    exact hrec

theorem findIndexUri_some : ∀ (l : List Source) (u : String) (i : Nat),
    findIndexUri u l = some i → ∃ v, l.get? i = some v ∧ v.uri = u
  | [], u, i, h => by simp [findIndexUri] at h
  | s :: rest, u, i, h => by
    by_cases hs : (s.uri == u) = true
    · rw [findIndexUri, if_pos hs] at h
      have h0 : (0 : Nat) = i := Option.some.inj h
      subst h0
      exact ⟨s, rfl, eq_of_beq hs⟩
    · rw [findIndexUri, if_neg hs] at h
      cases hr : findIndexUri u rest with
      | none => rw [hr] at h; simp at h
      | some j =>
        rw [hr] at h
        simp only [Option.map_some'] at h
        have hji : j + 1 = i := Option.some.inj h
        obtain ⟨v, hg, hu⟩ := findIndexUri_some rest u j hr
        subst hji
        exact ⟨v, hg, hu⟩

theorem findIndexUri_isSome_of_mem : ∀ (l : List Source) (v : Source), v ∈ l →
    ∃ i, findIndexUri v.uri l = some i
  | [], v, h => by simp at h
  | s :: rest, v, h => by
    by_cases hs : (s.uri == v.uri) = true
    · exact ⟨0, by rw [findIndexUri, if_pos hs]⟩
    · have hv : v ∈ rest := by
        cases List.mem_cons.mp h with
        | inl he => exact absurd (by rw [he]; exact beq_self_eq_true _) hs
        | inr ht => exact ht
      obtain ⟨i, hi⟩ := findIndexUri_isSome_of_mem rest v hv
      refine ⟨i + 1, ?_⟩
      rw [findIndexUri, if_neg hs, hi]
      rfl

/-- The rendered deduplicated list is an order-preserving selection from the
stored list. -/
theorem uniqueByUri_sublist (l : List Source) : List.Sublist (uniqueByUri l) l := by
  have h := List.Sublist.map Prod.snd
    (List.filter_sublist (p := fun p => findIndexUri p.2.uri l == some p.1) (enumFrom 0 l))
  rw [enumFrom_map_snd] at h
  exact h

/-- No two entries of the rendered deduplicated list share a uri. -/
theorem uniqueByUri_pairwise (l : List Source) :
    (uniqueByUri l).Pairwise (fun a b => a.uri ≠ b.uri) := by
  rw [uniqueByUri, List.pairwise_map]
  have hp := List.Pairwise.sublist
    (List.filter_sublist (p := fun p => findIndexUri p.2.uri l == some p.1) (enumFrom 0 l))
    (enumFrom_pairwise_lt l 0)
  refine hp.imp_of_mem ?_
  intro p q hpm hqm hlt heq
  have hpf := (List.mem_filter.mp hpm).2
  have hqf := (List.mem_filter.mp hqm).2
  simp only [beq_iff_eq] at hpf hqf
  rw [heq] at hpf
  rw [hpf] at hqf
  have := Option.some.inj hqf
  omega

/-- Every uri of the stored list survives into the rendered deduplicated
list (on its first occurrence). -/
theorem uniqueByUri_complete (l : List Source) (v : Source) (hv : v ∈ l) :
    ∃ w, w ∈ uniqueByUri l ∧ w.uri = v.uri := by
  obtain ⟨i, hi⟩ := findIndexUri_isSome_of_mem l v hv
  obtain ⟨w, hg, hu⟩ := findIndexUri_some l v.uri i hi
  refine ⟨w, ?_, hu⟩
  rw [uniqueByUri]
  apply List.mem_map.mpr
  refine ⟨(i, w), ?_, rfl⟩
  apply List.mem_filter.mpr
  constructor
  · have hm := get_mem_enumFrom l i 0 w hg
    simpa using hm
  · simp only [beq_iff_eq]
    rw [hu]
    exact hi

/-- Every source surviving the `sendMessage` filter stage has a nonempty
uri. -/
theorem mem_extractSources_ne (atts : List GroundingAttribution) (s : Source)
    (h : s ∈ extractSources atts) : s.uri ≠ "" := by
  rw [extractSources] at h
  have h2 := (List.mem_filter.mp h).2
  intro he
  rw [he] at h2
  simp at h2

/-! ## Shared scenario lemma: every attempt's body fails to decode -/

/-- When every one of the `N ≥ 1` permitted attempts resolves but its body
fails to decode, each non-final decode failure is retried with the doubling
backoff, and the loop ends after exactly `N` calls with the last attempt's
status and the synthesized parse-failure body. -/
theorem imageLoop_all_parse_fail (fetchFn : Nat → Except String FetchResult)
    (st : Nat → Nat) (em : Nat → String) (N : Nat) (hN : 1 ≤ N)
    (h : ∀ i, i < N → fetchFn i = .ok ⟨st i, .error (em i)⟩) :
    imageRetryLoop fetchFn N =
      { calls := N, sleeps := (List.range (N - 1)).map (fun j => 1000 * 2 ^ j),
        finalStatus := some (st (N - 1)),
        finalData := some (parseFailBody (em (N - 1))), thrown := none } := by
  rw [imageRetryLoop, imageGo_skip fetchFn (N - 1) N 0 1000 [] none none (by omega) ?pre]
  case pre =>
    intro j hj
    refine ⟨⟨st j, .error (em j)⟩, ?_, rfl⟩
    rw [Nat.zero_add]
    exact h j (by omega)
  have e1 : N - (N - 1) = 1 := by omega
  have e2 : 0 + (N - 1) = N - 1 := by omega
  rw [e1, e2, List.nil_append,
    imageGo_last_parse_fail fetchFn (N - 1) (1000 * 2 ^ (N - 1)) _ none none (st (N - 1))
      (em (N - 1)) (h (N - 1) (by omega))]
  have e3 : N - 1 + 1 = N := by omega
  rw [e3]

/-! ## Claim theorems -/

/-- Claim C1: for every attempt ceiling N ≥ 1 (the route fixes the default 5),
if the wrapped operation reports a retryable condition (status 429 or a
quota-exceeded body message) on every attempt, the image route's retry loop
performs exactly N upstream calls and then returns the last (status, body)
pair exactly as received — it is not converted into a distinct
retries-exhausted error. -/
theorem claim1_always_retryable_attempts_exactly_N
    (fetchFn : Nat → Except String FetchResult) (st : Nat → Nat)
    (bd : Nat → ImageApiResponseBody) (N : Nat) (hN : 1 ≤ N)
    (hok : ∀ i, i < N → fetchFn i = .ok ⟨st i, .ok (bd i)⟩)
    (hretry : ∀ i, i < N → (st i == 429 || isQuotaError (bd i)) = true) :
    imageRetryLoop fetchFn N =
      { calls := N, sleeps := (List.range (N - 1)).map (fun j => 1000 * 2 ^ j),
        finalStatus := some (st (N - 1)), finalData := some (bd (N - 1)),
        thrown := none } := by
  rw [imageRetryLoop, imageGo_skip fetchFn (N - 1) N 0 1000 [] none none (by omega) ?pre]
  case pre =>
    intro j hj
    refine ⟨⟨st j, .ok (bd j)⟩, ?_, ?_⟩
    · rw [Nat.zero_add]
      exact hok j (by omega)
    · simp only [retriesB]
      exact hretry j (by omega)
  have e1 : N - (N - 1) = 1 := by omega
  have e2 : 0 + (N - 1) = N - 1 := by omega
  rw [e1, e2, List.nil_append,
    imageGo_last_decoded fetchFn (N - 1) (1000 * 2 ^ (N - 1)) _ none none (st (N - 1))
      (bd (N - 1)) (hok (N - 1) (by omega))]
  have e3 : N - 1 + 1 = N := by omega
  rw [e3]

/-- Upstream oracle answering 429 with an empty decoded body forever. -/
def alwaysRateLimited : Nat → Except String FetchResult :=
  fun _ => .ok ⟨429, .ok {}⟩

/-- Witness for C1 at the default ceiling 5: five calls, the fifth 429 pair
returned as received. -/
theorem claim1_witness :
    imageRetryLoop alwaysRateLimited 5 =
      { calls := 5, sleeps := (List.range 4).map (fun j => 1000 * 2 ^ j),
        finalStatus := some 429, finalData := some {}, thrown := none } :=
  claim1_always_retryable_attempts_exactly_N alwaysRateLimited (fun _ => 429) (fun _ => {})
    5 (by decide) (fun _ _ => rfl) (fun _ _ => rfl)

/-- Client oracle answering a decodable 400 forever. -/
def always400 : Nat → Except String ClientFetch :=
  fun _ => .ok ⟨400, .ok { candidates := none, error := some { message := some "Bad Request" } }⟩

/-- Claim C2 counterexample: the claim says a response that is neither 429 nor
quota-flagged — such as a 400 — is returned immediately by the retry loop
with no further upstream calls and no backoff.  In the client's
`sendMessage` loop a decodable 400 is thrown (`if (!response.ok) throw`),
caught, and retried with backoff: with ceiling 5 the loop makes 5 calls and
4 doubling waits, then returns the fixed error turn instead of the (status,
body) pair. -/
theorem claim2_counterexample :
    sendMessageLoop always400 5 = .exhausted 5 [1000, 2000, 4000, 8000]
      ∧ (400 ≠ 429 ∧ respOk 400 = false) := by
  refine ⟨rfl, by decide, rfl⟩

/-- Claim C2 amended: (a) in the image proxy loop a decoded response that is
neither 429 nor quota-flagged is returned on the attempt it arrived, with
no further upstream calls and no further backoff wait; (b) in the client
loop a 2xx decoded response returns immediately; (c) but in the client loop
a non-2xx response (even a non-429 one such as 400 or 500) is treated as
retryable: at least a second upstream call follows whenever the ceiling
allows it. -/
theorem claim2_amended :
    (∀ (fetchFn : Nat → Except String FetchResult) (N k s : Nat)
        (b : ImageApiResponseBody), k < N →
        (∀ j, j < k → ∃ r, fetchFn j = .ok r ∧ retriesB r = true) →
        fetchFn k = .ok ⟨s, .ok b⟩ → (s == 429 || isQuotaError b) = false →
        imageRetryLoop fetchFn N =
          { calls := k + 1, sleeps := (List.range k).map (fun j => 1000 * 2 ^ j),
            finalStatus := some s, finalData := some b, thrown := none }) ∧
    (∀ (fetchFn : Nat → Except String ClientFetch) (N s : Nat) (b : GeminiResponse),
        1 ≤ N → fetchFn 0 = .ok ⟨s, .ok b⟩ → respOk s = true →
        sendMessageLoop fetchFn N = .finished 1 [] (some b)) ∧
    (∀ (fetchFn : Nat → Except String ClientFetch) (N s : Nat)
        (bodyE : Except String GeminiResponse), 2 ≤ N →
        fetchFn 0 = .ok ⟨s, bodyE⟩ → respOk s = false →
        2 ≤ (sendMessageLoop fetchFn N).calls) := by
  refine ⟨?_, ?_, ?_⟩
  · intro fetchFn N k s b hk hpre hbreak hnb
    rw [imageRetryLoop, imageGo_skip fetchFn k N 0 1000 [] none none hk ?pre]
    case pre =>
      intro j hj
      obtain ⟨r, hr, hrb⟩ := hpre j hj
      exact ⟨r, by rw [Nat.zero_add]; exact hr, hrb⟩
    have e1 : N - k = (N - k - 1) + 1 := by omega
    rw [e1, Nat.zero_add, List.nil_append,
      imageGo_break fetchFn (N - k - 1) k (1000 * 2 ^ k) _ none none s b hbreak hnb]
  · intro fetchFn N s b hN hf hok
    cases N with
    | zero => omega
    | succ f =>
      have h429 : (s == 429) = false := by
        simp only [respOk, Bool.and_eq_true, decide_eq_true_eq] at hok
        simp only [beq_eq_false_iff_ne]
        omega
      rw [sendMessageLoop]
      simp only [clientGo, hf, h429, Bool.false_and, Bool.false_eq_true, if_false,
        if_pos hok]
  · intro fetchFn N s bodyE hN hf hok
    cases N with
    | zero => omega
    | succ f =>
      have hf1 : 1 ≤ f := by omega
      have h0 : ¬(f = 0) := by omega
      rw [sendMessageLoop]
      by_cases hc : (s == 429 && !(f == 0)) = true
      · simp only [clientGo, hf]
        rw [if_pos hc]
        simp only [Nat.zero_add]
        have h := clientGo_calls_ge fetchFn f hf1 1 (1000 * 2) ([] ++ [1000]) none
        omega
      · cases hb : bodyE with
        | error e =>
          subst hb
          simp only [clientGo, hf]
          rw [if_neg hc, if_neg h0]
          simp only [Nat.zero_add]
          have h := clientGo_calls_ge fetchFn f hf1 1 (1000 * 2) ([] ++ [1000]) none
          omega
        | ok b =>
          subst hb
          simp only [clientGo, hf]
          rw [if_neg hc, if_neg (by rw [hok]; exact Bool.false_ne_true), if_neg h0]
          simp only [Nat.zero_add]
          have h := clientGo_calls_ge fetchFn f hf1 1 (1000 * 2) ([] ++ [1000]) (some b)
          omega

/-- Image oracle: one rate-limited attempt, then a decodable 200. -/
def onceThen200 : Nat → Except String FetchResult :=
  fun i => if i = 0 then .ok ⟨429, .ok {}⟩ else .ok ⟨200, .ok {}⟩

/-- Witness for the amended C2, part (a): after one retried 429 the 200
pair arrives on attempt 2 and is returned at once with a single wait. -/
theorem claim2_witness :
    imageRetryLoop onceThen200 5 =
      { calls := 2, sleeps := (List.range 1).map (fun j => 1000 * 2 ^ j),
        finalStatus := some 200, finalData := some {}, thrown := none } :=
  claim2_amended.1 onceThen200 5 1 200 {} (by decide)
    (fun j hj => by
      have hj0 : j = 0 := by omega
      subst hj0
      exact ⟨⟨429, .ok {}⟩, rfl, by decide⟩)
    rfl (by decide)

/-- Chat body whose error message flags exhausted quota. -/
def quotaChatBody : GeminiResponse :=
  { candidates := none, error := some { message := some "Quota exceeded for requests" } }

/-- Chat upstream answering 429 with the quota body on the (only) call. -/
def chatUpstream429 : GeminiFullPayload → Except String (ChatUpstream GeminiResponse) :=
  fun _ => .ok ⟨429, .ok quotaChatBody⟩

/-- Claim C3 counterexample: the claim says the chat proxy retries a 429 /
quota-exceeded upstream response whenever the attempt count is below the
ceiling (default 5).  The chat route's POST handler has no retry loop: a
429 quota-flagged response on attempt 1 < 5 is relayed verbatim after
exactly one upstream call. -/
theorem claim3_counterexample :
    chatRoutePOST (some "key") (.ok { contents := [] }) chatUpstream429 =
      { status := 429, body := .relayed quotaChatBody, bodyRead := true, upstreamCalls := 1 }
      ∧ 1 < 5 :=
  ⟨rfl, by decide⟩

/-- Claim C3 amended: the chat proxy performs exactly one upstream
text-generation call — attaching the fixed search-grounding tool flag and
the fixed system instruction — and relays the final status and body
verbatim, without retrying even when the response is 429 or quota-flagged;
retry with backoff for the chat path lives in the browser client's
`sendMessage` loop instead. -/
theorem claim3_amended {β : Type} (apiKey : Option String) (p : GeminiPayload)
    (upstream : GeminiFullPayload → Except String (ChatUpstream β)) (s : Nat) (b : β)
    (hkey : jsKeyMissing apiKey = false)
    (hup : upstream (chatGeminiPayload p) = .ok ⟨s, .ok b⟩) :
    chatRoutePOST apiKey (.ok p) upstream =
      { status := s, body := .relayed b, bodyRead := true, upstreamCalls := 1 }
      ∧ chatGeminiPayload p =
        { contents := p.contents, tools := [.googleSearch],
          systemInstruction := { parts := [{ text := chatSystemPromptText }] } } := by
  constructor
  · simp only [chatRoutePOST, hkey, Bool.false_eq_true, if_false, hup]
  · rfl

/-- Witness for the amended C3 at a concrete 429 quota answer: one call,
verbatim relay. -/
theorem claim3_witness :
    chatRoutePOST (some "key") (.ok { contents := [] }) chatUpstream429 =
      { status := 429, body := .relayed quotaChatBody, bodyRead := true,
        upstreamCalls := 1 } :=
  (claim3_amended (some "key") { contents := [] } chatUpstream429 429 quotaChatBody
    rfl rfl).1

/-- Claim C4: with the secret key absent (or empty, which JavaScript also treats
as missing), every entry point — the chat existence check, the chat POST
and the image POST — answers 500 with its misconfiguration body, without
reading the request body and without any upstream call. -/
theorem claim4_missing_key_rejects (apiKey : Option String)
    (hkey : jsKeyMissing apiKey = true) :
    chatRouteHEAD apiKey =
      { status := 500, body := .errorString chatKeyMissingMsg, bodyRead := false,
        upstreamCalls := 0 }
    ∧ (∀ (β : Type) (reqBody : Except String GeminiPayload)
        (upstream : GeminiFullPayload → Except String (ChatUpstream β)),
        chatRoutePOST apiKey reqBody upstream =
          { status := 500, body := .errorString chatKeyMissingMsg, bodyRead := false,
            upstreamCalls := 0 })
    ∧ (∀ (reqBody : Except String ImageRequest)
        (fetchFn : ImageGenPayload → Nat → Except String FetchResult),
        imageRoutePOST apiKey reqBody fetchFn =
          { status := 500, body := .errorString imageKeyMissingMsg, bodyRead := false,
            upstreamCalls := 0, sleeps := [] }) := by
  refine ⟨?_, ?_, ?_⟩
  · simp only [chatRouteHEAD, hkey, if_true]
  · intro β reqBody upstream
    simp only [chatRoutePOST, hkey, if_true]
  · intro reqBody fetchFn
    simp only [imageRoutePOST, hkey, if_true]

/-- Witness for C4 with the key absent: the body oracle is an errorer and
the upstream oracle rejects, yet neither is consulted. -/
theorem claim4_witness :
    chatRouteHEAD none =
      { status := 500, body := .errorString chatKeyMissingMsg, bodyRead := false,
        upstreamCalls := 0 }
    ∧ imageRoutePOST none (.error "body never read") (fun _ _ => .error "never called") =
      { status := 500, body := .errorString imageKeyMissingMsg, bodyRead := false,
        upstreamCalls := 0, sleeps := [] } := by
  have h := claim4_missing_key_rejects none rfl
  exact ⟨h.1, h.2.2 (.error "body never read") (fun _ _ => .error "never called")⟩

/-- Claim C5: in both retry loops (image route and client), for every ceiling
N ≥ 1 and every upstream behaviour, the recorded backoff waits are exactly
one per retry performed — none before the first attempt — and the j-th wait
(counting from 0) is `1000 * 2 ^ j` milliseconds: the delay starts at the
base 1000 and exactly doubles after each wait, with no cap and no jitter. -/
theorem claim5_backoff_doubles (N : Nat) (hN : 1 ≤ N) :
    (∀ fetchFn : Nat → Except String FetchResult,
      (imageRetryLoop fetchFn N).sleeps =
        (List.range ((imageRetryLoop fetchFn N).calls - 1)).map (fun j => 1000 * 2 ^ j)) ∧
    (∀ fetchFn : Nat → Except String ClientFetch,
      (sendMessageLoop fetchFn N).sleeps =
        (List.range ((sendMessageLoop fetchFn N).calls - 1)).map (fun j => 1000 * 2 ^ j)) := by
  constructor
  · intro fetchFn
    have h := imageGo_sleeps fetchFn N hN 0 none none
    simp only [pow_zero, mul_one, List.range_zero, List.map_nil] at h
    rw [imageRetryLoop]
    exact h
  · intro fetchFn
    have h := clientGo_sleeps fetchFn N hN 0 none
    simp only [pow_zero, mul_one, List.range_zero, List.map_nil] at h
    rw [sendMessageLoop]
    exact h

/-- Image oracle: two rate-limited attempts, then a decodable 200. -/
def twiceThen200 : Nat → Except String FetchResult :=
  fun i => if i < 2 then .ok ⟨429, .ok {}⟩ else .ok ⟨200, .ok {}⟩

/-- Witness for C5 at ceiling 5 on a concrete oracle: two retries wait
exactly 1000 then 2000 milliseconds. -/
theorem claim5_witness :
    (imageRetryLoop twiceThen200 5).sleeps = [1000, 2000] := by
  have h := (claim5_backoff_doubles 5 (by decide)).1 twiceThen200
  rw [h]
  rfl

/-- A grounding attribution whose web uri is `u` (no title). -/
def attWithUri (u : String) : GroundingAttribution :=
  { web := some { uri := some u, title := none } }

/-- Claim C6: the normalized source list (the `sendMessage` empty-uri filter
composed with the `MessageBubble` first-occurrence deduplication) contains
only nonempty uris, no two entries share a uri, it is an order-preserving
selection of the filtered sources, every filtered uri survives, and on
input uris [a, b, a, c] it is exactly [a, b, c] in that order. -/
theorem claim6_source_normalization :
    (∀ atts : List GroundingAttribution,
      (∀ s, s ∈ normalizedSources atts → s.uri ≠ "") ∧
      (normalizedSources atts).Pairwise (fun a b => a.uri ≠ b.uri) ∧
      List.Sublist (normalizedSources atts) (extractSources atts) ∧
      (∀ v, v ∈ extractSources atts →
        ∃ w, w ∈ normalizedSources atts ∧ w.uri = v.uri)) ∧
    normalizedSources [attWithUri "a", attWithUri "b", attWithUri "a", attWithUri "c"] =
      [{ uri := "a", title := none }, { uri := "b", title := none },
        { uri := "c", title := none }] := by
  constructor
  · intro atts
    refine ⟨?_, uniqueByUri_pairwise _, uniqueByUri_sublist _,
      fun v hv => uniqueByUri_complete _ v hv⟩
    intro s hs
    exact mem_extractSources_ne atts s
      ((uniqueByUri_sublist (extractSources atts)).subset hs)
  · decide

/-- Witness for C6 at the concrete [a, b, a, c] input: the uri b survives
normalization. -/
theorem claim6_witness :
    ∃ w, w ∈ normalizedSources
        [attWithUri "a", attWithUri "b", attWithUri "a", attWithUri "c"]
      ∧ w.uri = ("b" : String) :=
  (claim6_source_normalization.1
      [attWithUri "a", attWithUri "b", attWithUri "a", attWithUri "c"]).2.2.2
    { uri := "b", title := none } (by decide)

/-- Grounding metadata carrying the attribution uris [a, a]. -/
def dupMetadata : GroundingMetadata :=
  { groundingAttributions := some [attWithUri "a", attWithUri "a"] }

/-- Candidate content holding the single text part "hi". -/
def hiContent : CandidateContent :=
  { parts := some [{ text := some "hi" }] }

/-- A successful chat response whose single candidate carries the text
"hi" and two grounding attributions with the same uri "a". -/
def duplicatedSourcesResponse : GeminiResponse :=
  { candidates := some [{ content := some hiContent, groundingMetadata := some dupMetadata }],
    error := none }

/-- Claim C7 counterexample: the claim says every appended turn's sources list
has unique uris.  The turn `sendMessage` appends keeps the sources only
filtered, not deduplicated: a response with attribution uris [a, a] yields
a stored turn whose sources list contains the uri "a" twice.  Deduplication
happens only at render time, in `MessageBubble`. -/
theorem claim7_counterexample :
    (processResponse (some duplicatedSourcesResponse)).sources =
      some [{ uri := "a", title := none }, { uri := "a", title := none }]
    ∧ ¬ (([{ uri := "a", title := none }, { uri := "a", title := none }] :
        List Source).Pairwise (fun s t => s.uri ≠ t.uri)) := by
  constructor
  · decide
  · decide

/-- Claim C7 amended: every appended turn's sources list, when present, contains
only entries with nonempty uri; uniqueness of uris is established only in
the list `MessageBubble` renders (`uniqueSources`), not in the stored
turn. -/
theorem claim7_amended :
    (∀ result : Option GeminiResponse, ∀ l,
      (processResponse result).sources = some l → ∀ s, s ∈ l → s.uri ≠ "") ∧
    (∀ m : ChatMessage, (uniqueSources m).Pairwise (fun a b => a.uri ≠ b.uri)) := by
  constructor
  · intro result l hl s hs
    cases ht : truthyText result with
    | none =>
      simp only [processResponse, ht] at hl
      exact Option.noConfusion hl
    | some t =>
      simp only [processResponse, ht, Option.some.injEq] at hl
      subst hl
      cases hgm : (firstCandidate result).bind Candidate.groundingMetadata with
      | none => simp only [sourcesOfCandidate, hgm, List.not_mem_nil] at hs
      | some gm =>
        cases hga : gm.groundingAttributions with
        | none => simp only [sourcesOfCandidate, hgm, hga, List.not_mem_nil] at hs
        | some atts =>
          simp only [sourcesOfCandidate, hgm, hga] at hs
          exact mem_extractSources_ne atts s hs
  · intro m
    cases hms : m.sources with
    | none => simp only [uniqueSources, hms]; exact List.Pairwise.nil
    | some l => simp only [uniqueSources, hms]; exact uniqueByUri_pairwise l

/-- Witness for the amended C7 at the duplicated-sources response: the
stored entries have nonempty uris even though they repeat. -/
theorem claim7_witness :
    ({ uri := "a", title := none } : Source).uri ≠ "" :=
  claim7_amended.1 (some duplicatedSourcesResponse)
    [{ uri := "a", title := none }, { uri := "a", title := none }] (by decide)
    { uri := "a", title := none } (by decide)

/-- Claim C8: when the body of every one of the N ≥ 1 attempts fails to decode,
each non-final decode failure is treated as retryable (so all N calls are
made, with the doubling backoff), and the final decode failure makes the
loop return the synthesized error result whose message carries the decode
failure. -/
theorem claim8_decode_failure_retryable (fetchFn : Nat → Except String FetchResult)
    (st : Nat → Nat) (em : Nat → String) (N : Nat) (hN : 1 ≤ N)
    (h : ∀ i, i < N → fetchFn i = .ok ⟨st i, .error (em i)⟩) :
    imageRetryLoop fetchFn N =
      { calls := N, sleeps := (List.range (N - 1)).map (fun j => 1000 * 2 ^ j),
        finalStatus := some (st (N - 1)),
        finalData := some (parseFailBody (em (N - 1))), thrown := none }
    ∧ (parseFailBody (em (N - 1))).error =
      some { message := some ("Failed to parse response from API: " ++ em (N - 1)) } :=
  ⟨imageLoop_all_parse_fail fetchFn st em N hN h, rfl⟩

/-- Image oracle answering 200 with an undecodable body forever. -/
def alwaysBadJson : Nat → Except String FetchResult :=
  fun _ => .ok ⟨200, .error "Unexpected token"⟩

/-- Witness for C8 at ceiling 5: five calls, then the synthesized
parse-failure body. -/
theorem claim8_witness :
    imageRetryLoop alwaysBadJson 5 =
      { calls := 5, sleeps := (List.range 4).map (fun j => 1000 * 2 ^ j),
        finalStatus := some 200, finalData := some (parseFailBody "Unexpected token"),
        thrown := none } :=
  (claim8_decode_failure_retryable alwaysBadJson (fun _ => 200)
    (fun _ => "Unexpected token") 5 (by decide) (fun _ _ => rfl)).1

/-- Claim C9: the response normalizer is total — the embedding is a total
function, and every missing-field shape (absent response, missing
candidates, empty candidates, missing content, missing parts, empty parts,
missing text, empty text) lands in the fallback turn, whose message is the
body's top-level error message when that is present and nonempty, and the
generic empty-or-malformed message otherwise. -/
theorem claim9_normalizer_total_fallback :
    (∀ result : Option GeminiResponse, truthyText result = none →
      processResponse result =
        { role := .ai, text := "An unexpected error occurred: " ++ errorDetail result,
          sources := none }) ∧
    (∀ result : Option GeminiResponse,
      (result.bind GeminiResponse.error).bind GeminiError.message = none →
      errorDetail result = "Received an empty or malformed response.") ∧
    (∀ msg, msg ≠ "" →
      errorDetail (some { candidates := none, error := some { message := some msg } })
        = msg) ∧
    truthyText none = none ∧
    (∀ err, truthyText (some ⟨none, err⟩) = none) ∧
    (∀ err, truthyText (some ⟨some [], err⟩) = none) ∧
    (∀ err, truthyText (some ⟨some [⟨none, none⟩], err⟩) = none) ∧
    (∀ err, truthyText (some ⟨some [⟨some ⟨none⟩, none⟩], err⟩) = none) ∧
    (∀ err, truthyText (some ⟨some [⟨some ⟨some []⟩, none⟩], err⟩) = none) ∧
    (∀ err, truthyText (some ⟨some [⟨some ⟨some [⟨none⟩]⟩, none⟩], err⟩) = none) ∧
    (∀ err, truthyText (some ⟨some [⟨some ⟨some [⟨some ""⟩]⟩, none⟩], err⟩) = none) := by
  refine ⟨?_, ?_, ?_, rfl, fun _ => rfl, fun _ => rfl, fun _ => rfl, fun _ => rfl,
    fun _ => rfl, fun _ => rfl, fun _ => rfl⟩
  · intro result h
    simp only [processResponse, h]
  · intro result h
    rw [errorDetail, h]
    rfl
  · intro msg hmsg
    rw [errorDetail]
    simp only [Option.some_bind, jsStringOr]
    exact if_neg hmsg

/-- Witness for C9 at the empty response: the generic fallback turn. -/
theorem claim9_witness :
    processResponse none =
      { role := .ai,
        text := "An unexpected error occurred: Received an empty or malformed response.",
        sources := none } :=
  claim9_normalizer_total_fallback.1 none rfl

/-- Claim C10: (a) when every attempt of the image proxy gets a response whose
body fails to decode, the proxy's final HTTP response carries the status of
the last upstream response — even a 200 — together with the synthesized
decode-error body; (b) a 500 is substituted only when no upstream response
was obtained at all, i.e. when the fetch itself rejects and the outer catch
answers 500 with the error message. -/
theorem claim10_decode_failure_status_forwarding :
    (∀ (apiKey : Option String) (p : String)
        (fetchFn : ImageGenPayload → Nat → Except String FetchResult)
        (st : Nat → Nat) (em : Nat → String),
        jsKeyMissing apiKey = false → p ≠ "" →
        (∀ i, i < 5 → fetchFn (geminiImagePayload p) i = .ok ⟨st i, .error (em i)⟩) →
        st 4 ≠ 0 →
        imageRoutePOST apiKey (.ok { instances := some { prompt := some p } }) fetchFn =
          { status := st 4, body := .forwarded (some (parseFailBody (em 4))),
            bodyRead := true, upstreamCalls := 5,
            sleeps := (List.range 4).map (fun j => 1000 * 2 ^ j) }) ∧
    (∀ (apiKey : Option String) (p : String)
        (fetchFn : ImageGenPayload → Nat → Except String FetchResult) (e : String),
        jsKeyMissing apiKey = false → p ≠ "" →
        fetchFn (geminiImagePayload p) 0 = .error e →
        imageRoutePOST apiKey (.ok { instances := some { prompt := some p } }) fetchFn =
          { status := 500, body := .errorString e, bodyRead := true,
            upstreamCalls := 1, sleeps := [] }) := by
  constructor
  · intro apiKey p fetchFn st em hkey hp hfetch hst
    have hloop := imageLoop_all_parse_fail (fetchFn (geminiImagePayload p)) st em 5
      (by decide) hfetch
    rw [show (5 : Nat) - 1 = 4 from rfl] at hloop
    simp only [imageRoutePOST, hkey, Bool.false_eq_true, if_false, Option.some_bind,
      jsTruthyString, if_neg hp, hloop, jsStatusOr500, if_neg hst]
  · intro apiKey p fetchFn e hkey hp hfetch
    have hloop : imageRetryLoop (fetchFn (geminiImagePayload p)) 5 =
        { calls := 1, sleeps := [], finalStatus := none, finalData := none,
          thrown := some e } := by
      rw [imageRetryLoop]
      exact imageGo_thrown (fetchFn (geminiImagePayload p)) 4 0 1000 [] none none e hfetch
    simp only [imageRoutePOST, hkey, Bool.false_eq_true, if_false, Option.some_bind,
      jsTruthyString, if_neg hp, hloop]

/-- Image oracle whose responses are all 200 with undecodable bodies. -/
def status200BadJson : ImageGenPayload → Nat → Except String FetchResult :=
  fun _ _ => .ok ⟨200, .error "Unexpected end of JSON input"⟩

/-- Image oracle whose first fetch rejects outright. -/
def fetchRejects : ImageGenPayload → Nat → Except String FetchResult :=
  fun _ _ => .error "network unreachable"

/-- Witness for C10: with all bodies undecodable the proxy answers 200
(the last upstream status) with the synthesized body; with the fetch
rejecting it answers 500. -/
theorem claim10_witness :
    imageRoutePOST (some "key") (.ok { instances := some { prompt := some "cat" } })
        status200BadJson =
      { status := 200,
        body := .forwarded (some (parseFailBody "Unexpected end of JSON input")),
        bodyRead := true, upstreamCalls := 5,
        sleeps := (List.range 4).map (fun j => 1000 * 2 ^ j) }
    ∧ imageRoutePOST (some "key") (.ok { instances := some { prompt := some "cat" } })
        fetchRejects =
      { status := 500, body := .errorString "network unreachable", bodyRead := true,
        upstreamCalls := 1, sleeps := [] } :=
  ⟨claim10_decode_failure_status_forwarding.1 (some "key") "cat" status200BadJson
      (fun _ => 200) (fun _ => "Unexpected end of JSON input") rfl (by decide)
      (fun _ _ => rfl) (by decide),
    claim10_decode_failure_status_forwarding.2 (some "key") "cat" fetchRejects
      "network unreachable" rfl (by decide) rfl⟩

end FishBarrel
